import Mathlib

/-!
Verification of the FirecREST v2 cluster-access and data-transfer core.

This file is a shallow embedding of the Python sources
`firecrest/dependencies.py`, `firecrest/config.py`,
`firecrest/status/health_check/health_checker_cluster.py`,
`lib/auth/authN/OIDC_token_auth.py` and
`lib/datatransfers/s3/s3_datatransfer.py`, together with theorems about
the embedded definitions.  Python exceptions are embedded as explicit
outcome values, `dict`s as association lists, and the `asyncio` lock of
the pool registry as atomicity of the registry critical section (a
concurrent execution is any interleaving, i.e. any sequence, of the
atomic critical sections).
-/

/-- Truthiness of a Python `Optional[str]`: `None` and `""` are falsy. -/
def strTruthy : Option String → Bool
  | none => false
  | some s => s ≠ ""

/-- Python `p.startswith(sp)`: the characters of `sp` are a prefix of the
characters of `p`.  (`String.startsWith` itself is not kernel-reducible,
so the character-list formulation is used throughout.) -/
def strStartsWith (p sp : String) : Bool := sp.data.isPrefixOf p.data

/-- The `HealthCheckType` enum from `firecrest/config.py`. -/
inductive HealthCheckType where
  | scheduler
  | filesystem
  | ssh
  | s3
  | exception
deriving DecidableEq

/-- One health record (`BaseServiceHealth` and its subclasses in
`firecrest/config.py`).  `path` is populated for filesystem records only;
the Optional `healthy` flag (default `False`, tested for truthiness in
`dependencies.py`) is embedded as a `Bool`.  `last_checked` timestamps are
embedded as naturals. -/
structure ServiceHealth where
  service_type : HealthCheckType
  path : Option String := none
  healthy : Bool := false
  message : Option String := none
  last_checked : Option Nat := none
deriving DecidableEq

/-- The fields of `HPCCluster` (`firecrest/config.py`) that the admission
check reads: the (validator-normalised) cluster name and the optional
health snapshot.  The required `probing` sub-model is always truthy in
Python, so it is not carried here. -/
structure HPCCluster where
  name : String
  servicesHealth : Option (List ServiceHealth) := none
deriving DecidableEq

/-- The `to_lowercase` field validator of `HPCCluster`: a configured
cluster name is lowercased (`value.lower()`) before it is stored.  The
lowercasing is embedded per character over the character list, which is
extensionally `String.toLower` (itself not kernel-reducible). -/
def loadClusterName (raw : String) : String :=
  String.mk (raw.data.map Char.toLower)

/-- Outcome of `ServiceAvailabilityDependency.__call__` in
`firecrest/dependencies.py`; the `HTTPException`s raised by the Python
code are embedded as distinct constructors. -/
inductive AdmissionOutcome where
  /-- HTTP 404, "System not found". -/
  | notFound
  /-- HTTP 400, missing `path` parameter on a filesystem request. -/
  | badRequest
  /-- HTTP 428, no health record matches the request. -/
  | preconditionRequired
  /-- HTTP 503, the matching health record is unhealthy. -/
  | serviceUnavailable
  /-- The system is returned to the caller. -/
  | ok (system : HPCCluster)
deriving DecidableEq

/-- Embeds `if system.servicesHealth:` — `None` and the empty list both make the
snapshot contribute no records. -/
def snapshotRecords : Option (List ServiceHealth) → List ServiceHealth
  | none => []
  | some l => l

/-- Embeds `next(filter(lambda s: s.service_type == ty, records), None)`. -/
def findServiceRecord (ty : HealthCheckType) (records : List ServiceHealth) :
    Option ServiceHealth :=
  records.find? (fun s => decide (s.service_type = ty))

/-- The filesystem record filter of
`ServiceAvailabilityDependency.__file_system_health`: the record's type is
`filesystem` and its monitored path is a string prefix of the requested
path.  (A filesystem record whose `path` is `None` would crash the Python
lambda; such records are never produced and are embedded as non-matching.) -/
def findFilesystemRecord (p : String) (records : List ServiceHealth) :
    Option ServiceHealth :=
  records.find? (fun s =>
    decide (s.service_type = HealthCheckType.filesystem) &&
      (match s.path with
       | some sp => strStartsWith p sp
       | none => false))

/-- Embeds `ServiceAvailabilityDependency.__file_system_health`, with the
requested path already extracted from the query or body (`none` embeds an
absent path). -/
def file_system_health (system : HPCCluster) (path : Option String) :
    AdmissionOutcome :=
  match path with
  | none => .badRequest
  | some p =>
    match findFilesystemRecord p (snapshotRecords system.servicesHealth) with
    | none => .preconditionRequired
    | some service =>
      if service.healthy then .ok system else .serviceUnavailable

/-- Embeds `ServiceAvailabilityDependency.__scheduler_health`. -/
def scheduler_health (system : HPCCluster) : AdmissionOutcome :=
  match findServiceRecord .scheduler (snapshotRecords system.servicesHealth) with
  | none => .preconditionRequired
  | some service =>
    if service.healthy then .ok system else .serviceUnavailable

/-- Embeds `ServiceAvailabilityDependency.__ssh_health`. -/
def ssh_health (system : HPCCluster) : AdmissionOutcome :=
  match findServiceRecord .ssh (snapshotRecords system.servicesHealth) with
  | none => .preconditionRequired
  | some service =>
    if service.healthy then .ok system else .serviceUnavailable

/-- Embeds `ServiceAvailabilityDependency.__call__`: exact-match lookup of the
requested system name in the configured clusters (`StopIteration` of
`next` becomes `notFound`), then — unless health is ignored; the required
`probing` model is always truthy — the health check for the dependency's
service type. -/
def serviceAvailabilityCall (clusters : List HPCCluster)
    (service_type : HealthCheckType) (ignore_health : Bool)
    (system_name : String) (path : Option String) : AdmissionOutcome :=
  match clusters.find? (fun c => decide (c.name = system_name)) with
  | none => .notFound
  | some system =>
    if ignore_health then .ok system
    else
      match service_type with
      | .filesystem => file_system_health system path
      | .scheduler => scheduler_health system
      | .ssh => ssh_health system
      | _ => .ok system

/-! ## The SSH connection-pool registry (`SSHClientDependency`) -/

/-- Association-list lookup embedding the Python `dict` operations
`name in pools` / `pools[name]` of `SSHClientDependency`. -/
def plookup (name : String) : List (String × Nat) → Option Nat
  | [] => none
  | (m, p) :: rest => if m = name then some p else plookup name rest

/-- State of the class-level pool registry `SSHClientDependency.client_pools`.
A pool instance is identified by the (unique) counter value at its
construction; `constructionLog` records one entry per `SSHClientPool(...)`
constructor call. -/
structure RegState where
  pools : List (String × Nat)
  nextId : Nat
  constructionLog : List String
deriving DecidableEq

/-- The empty registry at process start (`client_pools = {}`). -/
def initRegState : RegState := ⟨[], 0, []⟩

/-- The critical section of `SSHClientDependency.__call__` (the body of
`async with SSHClientDependency.lock`): return the registered pool if the
name is present, otherwise construct a pool, publish it and return it.
The surrounding `asyncio.Lock` makes this lookup-and-insert atomic, so a
concurrent execution is a sequence of `acquire` steps. -/
def acquire (st : RegState) (name : String) : Nat × RegState :=
  match plookup name st.pools with
  | some p => (p, st)
  | none =>
    (st.nextId,
     ⟨(name, st.nextId) :: st.pools, st.nextId + 1, name :: st.constructionLog⟩)

/-- Run a sequence of acquisitions (one interleaving of N concurrent
callers), collecting each caller's (requested name, returned pool) pair. -/
def runAcquires (st : RegState) : List String → List (String × Nat) × RegState
  | [] => ([], st)
  | n :: rest =>
    let r := acquire st n
    let rs := runAcquires r.2 rest
    ((n, r.1) :: rs.1, rs.2)

/-! ## The S3 data-transfer orchestrator (`lib/datatransfers/s3/s3_datatransfer.py`) -/

/-- Embeds `math.ceil(a / b)` on non-negative integers, with exact (rational)
division: the part-count computation of `S3Datatransfer.upload` and
`S3Datatransfer.download`. -/
def ceilDivNat (a b : Nat) : Nat := (a + b - 1) / b

/-- Which of the two configured storage endpoints a presigned URL is
issued against (`s3_client_private` / `s3_client_public`). -/
inductive Endpoint where
  | priv
  | pub
deriving DecidableEq

/-- The `Params` dict passed to `generate_presigned_url`. -/
structure PresignParams where
  bucket : String
  key : String
  uploadId : Option String := none
  partNumber : Option Nat := none
deriving DecidableEq

/-- One request issued to an S3 client.  `createBucket`, `putLifecycle`
and `createMultipart` are always sent to the private client in the
source, so they carry no endpoint. -/
inductive S3Op where
  | createBucket (bucket : String)
  | putLifecycle (bucket : String)
  | createMultipart (bucket : String) (key : String)
  | presign (endpoint : Endpoint) (action : String) (params : PresignParams)
deriving DecidableEq

/-- One observable step of a transfer operation. -/
inductive Event where
  | s3 (op : S3Op)
  | sshStat (path : String)
  | submitJob (working_dir : String) (job_name : String)
deriving DecidableEq

/-- Embeds `_generate_presigned_url`: when a tenant is configured (truthy), the
`Bucket` request parameter is rewritten to `"tenant:bucket"` before the
URL is generated. -/
def presignOp (endpoint : Endpoint) (action : String) (tenant : Option String)
    (params : PresignParams) : S3Op :=
  if strTruthy tenant then
    .presign endpoint action
      { params with bucket := tenant.getD "" ++ ":" ++ params.bucket }
  else
    .presign endpoint action params

/-- The configuration fields of `S3Datatransfer` used by `upload` and
`download`.  `bucket_name_pfx` embeds the source's bucket-name prefix
attribute (an `Optional[str]` tested for truthiness). -/
structure S3Config where
  work_dir : String
  max_part_size : Nat
  use_split : Bool := false
  tmp_folder : String := ""
  parallel_runs : Nat := 1
  tenant : Option String := none
  ttl : Nat := 0
  system_name : String := ""
  bucket_name_pfx : Option String := none
deriving DecidableEq

/-- Embeds `bucket_name = username; if <bucket name prefix>: bucket_name =
f"{<bucket name prefix>}{bucket_name}"` — shared by `upload` and
`download`. -/
def bucketNameFor (cfg : S3Config) (username : String) : String :=
  if strTruthy cfg.bucket_name_pfx then cfg.bucket_name_pfx.getD "" ++ username
  else username

/-- Result of an S3 `create_bucket` call: success, the
`BucketAlreadyOwnedByYou` exception (caught by the source), or any other
exception (propagated by the source). -/
inductive CreateBucketResult where
  | ok
  | alreadyOwned
  | otherError
deriving DecidableEq

/-- A transfer operation that aborted with a propagated exception. -/
inductive TransferError where
  | bucketCreation
deriving DecidableEq

/-- The bucket-ensure prefix of the operation's request trace:
`create_bucket` followed, only when creation succeeded, by
`put_bucket_lifecycle_configuration`; `BucketAlreadyOwnedByYou` skips the
lifecycle call.  `createTarget` is the bucket named in `create_bucket`
and `lifecycleTarget` the bucket named in the lifecycle call (the two
differ in the source's `download`). -/
def ensureEvents (createTarget lifecycleTarget : String) :
    CreateBucketResult → Option (List Event)
  | .ok => some [.s3 (.createBucket createTarget), .s3 (.putLifecycle lifecycleTarget)]
  | .alreadyOwned => some [.s3 (.createBucket createTarget)]
  | .otherError => none

/-- The part-upload presign loop: `for part_number in range(1,
ceil(size / max_part_size) + 1)`. -/
def partPresignEvents (endpoint : Endpoint) (tenant : Option String)
    (bucket key uploadId : String) (size max_part_size : Nat) : List Event :=
  (List.range' 1 (ceilDivNat size max_part_size)).map fun n =>
    .s3 (presignOp endpoint "upload_part" tenant
      { bucket := bucket, key := key, uploadId := some uploadId,
        partNumber := some n })

/-- Embeds `S3Datatransfer.upload` as the ordered trace of requests it issues.
`objectKey` and `uploadId` stand for the generated
`f"{uuid4()}/{basename(target.path)}"` key and the multipart upload id
returned by storage; `createResult` is the outcome of `create_bucket`.
An `otherError` creation outcome propagates and aborts the operation
after the `create_bucket` request. -/
def uploadTrace (cfg : S3Config) (username : String) (file_size : Nat)
    (objectKey uploadId : String) (createResult : CreateBucketResult) :
    Except TransferError (List Event) :=
  let bucket := bucketNameFor cfg username
  match ensureEvents bucket bucket createResult with
  | none => .error .bucketCreation
  | some ensure =>
    .ok (ensure ++
      [.s3 (.createMultipart bucket objectKey)] ++
      partPresignEvents .pub cfg.tenant bucket objectKey uploadId
        file_size cfg.max_part_size ++
      [.s3 (presignOp .pub "complete_multipart_upload" cfg.tenant
          { bucket := bucket, key := objectKey, uploadId := some uploadId }),
       .s3 (presignOp .priv "get_object" cfg.tenant
          { bucket := bucket, key := objectKey }),
       .s3 (presignOp .priv "head_object" cfg.tenant
          { bucket := bucket, key := objectKey }),
       .submitJob (cfg.work_dir ++ "/" ++ username) "IngressFileTransfer"])

/-- Embeds `S3Datatransfer.download` as the ordered trace of requests it issues.
The source path is stat-ed over the SSH session first (`stat_size` is the
size it reports); note that the source's `create_bucket` call names the
bare `username` while every other step names the (possibly prefixed)
`bucket_name`. -/
def downloadTrace (cfg : S3Config) (username source_path : String)
    (stat_size : Nat) (objectKey uploadId : String)
    (createResult : CreateBucketResult) :
    Except TransferError (List Event) :=
  let bucket := bucketNameFor cfg username
  match ensureEvents username bucket createResult with
  | none => .error .bucketCreation
  | some ensure =>
    .ok (.sshStat source_path :: ensure ++
      [.s3 (.createMultipart bucket objectKey)] ++
      partPresignEvents .priv cfg.tenant bucket objectKey uploadId
        stat_size cfg.max_part_size ++
      [.s3 (presignOp .priv "complete_multipart_upload" cfg.tenant
          { bucket := bucket, key := objectKey, uploadId := some uploadId }),
       .submitJob (cfg.work_dir ++ "/" ++ username) "OutgressFileTransfer",
       .s3 (presignOp .pub "get_object" cfg.tenant
          { bucket := bucket, key := objectKey })])

/-- The part number of an `upload_part` presign request. -/
def partNumberOf : Event → Option Nat
  | .s3 (.presign _ a p) => if a = "upload_part" then p.partNumber else none
  | _ => none

/-- The part numbers of the `upload_part` presign requests of a trace, in
order. -/
def uploadPartNumbers (tr : List Event) : List Nat :=
  tr.filterMap partNumberOf

/-- The action of a presign request, if the event is one. -/
def presignAction : Event → Option String
  | .s3 (.presign _ a _) => some a
  | _ => none

/-- The endpoint of a presign request, if the event is one. -/
def presignEndpoint : Event → Option Endpoint
  | .s3 (.presign ep _ _) => some ep
  | _ => none

/-- The `Bucket` parameter of a presign request, if the event is one. -/
def presignBucket : Event → Option String
  | .s3 (.presign _ _ p) => some p.bucket
  | _ => none

/-! ## Bucket-ensure idempotence: an explicit S3 state -/

/-- An explicit object-storage state for the bucket-ensure step of
`S3Datatransfer.upload` (lines 98–107): buckets owned by the requester,
buckets owned by another principal (creation of which raises an error
other than `BucketAlreadyOwnedByYou`), and the log of buckets a lifecycle
configuration has been applied to (one entry per
`put_bucket_lifecycle_configuration` call). -/
structure S3State where
  owned : List String
  foreign : List String
  lifecycleLog : List String
deriving DecidableEq

/-- Embeds `create_bucket(Bucket=b)` against an `S3State`: an already-owned
bucket raises `BucketAlreadyOwnedByYou`, a bucket owned by someone else
raises a different error, otherwise the bucket is created. -/
def create_bucket (st : S3State) (b : String) : S3State × CreateBucketResult :=
  if st.owned.contains b then (st, .alreadyOwned)
  else if st.foreign.contains b then (st, .otherError)
  else ({ st with owned := b :: st.owned }, .ok)

/-- Embeds `put_bucket_lifecycle_configuration(Bucket=b, ...)`. -/
def put_bucket_lifecycle (st : S3State) (b : String) : S3State :=
  { st with lifecycleLog := b :: st.lifecycleLog }

/-- The bucket-ensure step of `S3Datatransfer.upload`:
`try: create_bucket; put_bucket_lifecycle_configuration
except BucketAlreadyOwnedByYou: pass`.  `BucketAlreadyOwnedByYou` is
swallowed without touching the lifecycle; a successful creation is
followed by the lifecycle call; any other creation error propagates
(`.error`). -/
def ensure_bucket (st : S3State) (b : String) : Except Unit S3State :=
  match create_bucket st b with
  | (st1, .ok) => .ok (put_bucket_lifecycle st1 b)
  | (st1, .alreadyOwned) => .ok st1
  | (_, .otherError) => .error ()

/-! ## The per-cluster health-check cycle (`ClusterHealthChecker.check`) -/

/-- The exception caught by `ClusterHealthChecker.check`: its Python
class name and its `str(...)` rendering. -/
structure ExcInfo where
  className : String
  msg : String
deriving DecidableEq

/-- The error message built by the `except` branch of
`ClusterHealthChecker.check`: the exception class name, extended with
`" - "` and the exception text exactly when that text is non-empty. -/
def healthErrorMessage (ex : ExcInfo) : String :=
  if ex.msg.length > 0 then
    "Cluster HealthChecker execution failed with error: " ++ ex.className
      ++ " - " ++ ex.msg
  else
    "Cluster HealthChecker execution failed with error: " ++ ex.className

/-- The single `HealthCheckException(service_type="exception")` record
published when the cycle fails before the probes run. -/
def healthExceptionRecord (ex : ExcInfo) (now : Nat) : ServiceHealth :=
  { service_type := .exception, healthy := false,
    message := some (healthErrorMessage ex), last_checked := some now }

/-- Embeds `ClusterHealthChecker.check`, as a function of the outcome of the
token-exchange/decoding-and-probing phase: on success the gathered probe
results replace the snapshot and nothing is raised; on failure the
snapshot is replaced by the single exception record and the triggering
exception is re-raised (returned as `some`) after the snapshot
assignment.  The first component is the new `cluster.servicesHealth`, the
second the re-raised exception. -/
def clusterHealthCheck (outcome : Except ExcInfo (List ServiceHealth))
    (now : Nat) : Option (List ServiceHealth) × Option ExcInfo :=
  match outcome with
  | .ok results => (some results, none)
  | .error ex => (some [healthExceptionRecord ex now], some ex)

/-! ## Token verification (`lib/auth/authN/OIDC_token_auth.py`) -/

/-- The identity constructed from a decoded token
(`ApiAuthModel.build_from_oidc_decoded_token`); `active` embeds the
result of claim inspection `auth.is_active()`. -/
structure ApiAuth where
  username : String
  active : Bool
deriving DecidableEq

/-- Outcome of `jwt.decode` on a token whose verification key was found:
success, `ExpiredSignatureError`, or any other `JWTError`. -/
inductive JwtOutcome where
  | ok (auth : ApiAuth)
  | expired
  | invalid
deriving DecidableEq

/-- Outcome of `jwt.get_unverified_header`: a malformed token raises
`JWTError`; otherwise the header carries optional `kid` and `x5t`
fields. -/
inductive HeaderView where
  | malformed
  | fields (kid x5t : Option String)
deriving DecidableEq

/-- A bearer token as `auth_from_token` observes it: its unverified
header, and the outcome of `jwt.decode` under the right key. -/
structure TokenView where
  header : HeaderView
  body : JwtOutcome
deriving DecidableEq

/-- Python `a or b` on two optional strings (`""` is falsy). -/
def firstTruthy (a b : Option String) : Option String :=
  match a with
  | some s => if s = "" then b else some s
  | none => b

/-- Outcome of `OIDCTokenAuth.auth_from_token`: the decoded identity, or
one of the three exceptions `KeyError` (key identifier not in
`public_keys` — including an absent identifier), `ExpiredSignatureError`,
and `JWTError`. -/
inductive DecodeOutcome where
  | ok (auth : ApiAuth)
  | keyError
  | expiredError
  | jwtError
deriving DecidableEq

/-- Embeds `OIDCTokenAuth.auth_from_token` over the key-identifier set of the
verification-key cache `public_keys`: parse the unverified header
(malformed → `JWTError`), take `kid or x5t` as the identifier, look it up
in the cache (absent → `KeyError`), then decode the token under that key. -/
def auth_from_token (keyIds : List String) (t : TokenView) : DecodeOutcome :=
  match t.header with
  | .malformed => .jwtError
  | .fields kid x5t =>
    match firstTruthy kid x5t with
    | none => .keyError
    | some id =>
      if keyIds.contains id then
        match t.body with
        | .ok auth => .ok auth
        | .expired => .expiredError
        | .invalid => .jwtError
      else .keyError

/-- Result of `OIDCTokenAuth.authenticate`: the identity, or an
`HTTPException` with its status code and detail string. -/
inductive AuthResult where
  | ok (auth : ApiAuth)
  | httpError (statusCode : Nat) (detail : String)
deriving DecidableEq

/-- Embeds `OIDCTokenAuth.authenticate`: decode the token; an inactive identity
is rejected with 401 "Inactive authentication"; `ExpiredSignatureError`,
`JWTError` and `KeyError` are mapped (in this order, so the
`ExpiredSignatureError ⊂ JWTError` subclassing cannot collapse them) to
401 responses with three distinct detail strings. -/
def authenticate (keyIds : List String) (t : TokenView) : AuthResult :=
  match auth_from_token keyIds t with
  | .ok auth =>
    if auth.active then .ok auth
    else .httpError 401 "Inactive authentication"
  | .expiredError => .httpError 401 "Access token expired"
  | .jwtError => .httpError 401 "Access token is invalid."
  | .keyError => .httpError 401 "Token's public key not found."

/-! ## Trace helpers -/

/-- The events of a transfer operation that did not abort (an aborted
operation contributes no trace). -/
def traceEvents : Except TransferError (List Event) → List Event
  | .ok tr => tr
  | .error _ => []

/-- Number of `complete_multipart_upload` presign requests in a trace. -/
def completeUrlCount (tr : List Event) : Nat :=
  (tr.filter fun e =>
    decide (presignAction e = some "complete_multipart_upload")).length

/-- The bucket name as it appears in a presigned-URL request after the
tenant rewrite of `_generate_presigned_url`. -/
def tenantBucketName (tenant : Option String) (bucket : String) : String :=
  if strTruthy tenant then tenant.getD "" ++ ":" ++ bucket else bucket

/-- Invariant tying the construction log to the registry: a pool has been
constructed for a name exactly once if the name is registered, never
otherwise. -/
def RegInv (st : RegState) : Prop :=
  ∀ name, st.constructionLog.count name =
    (match plookup name st.pools with
     | some _ => 1
     | none => 0)

/-- A cluster configured for C2's witness: healthy scheduler record, no
ssh record, one unhealthy filesystem record for `/scratch`. -/
def witnessCluster : HPCCluster :=
  { name := "daint",
    servicesHealth := some
      [{ service_type := .scheduler, healthy := true },
       { service_type := .filesystem, path := some "/scratch",
         healthy := false }] }

/-- The S3 configuration of the end-to-end witness scenarios: work
directory `/wd`, max part size 2 GiB, no tenant, no bucket-name prefixing. -/
def cfgW : S3Config := { work_dir := "/wd", max_part_size := 2 * 2 ^ 30 }

/-- The S3 configuration of the tenant counterexample: tenant `"ten"`
configured, no bucket-name prefixing. -/
def cfgTen : S3Config :=
  { work_dir := "/wd", max_part_size := 1, tenant := some "ten" }

/-- The S3 configuration with a bucket-name prefix `"fc-"` configured. -/
def cfgPre : S3Config :=
  { work_dir := "/wd", max_part_size := 4, bucket_name_pfx := some "fc-" }

/-! ## C1: the pool registry constructs one pool per cluster name -/

theorem acquire_lookup_preserve (st : RegState) (m n : String) (p : Nat)
    (h : plookup n st.pools = some p) :
    plookup n (acquire st m).2.pools = some p := by
  unfold acquire
  cases hm : plookup m st.pools with
  | some q => simpa using h
  | none =>
    show plookup n ((m, st.nextId) :: st.pools) = some p
    unfold plookup
    by_cases hnm : m = n
    · subst hnm
      rw [h] at hm
      cases hm
    · simpa [hnm] using h

theorem acquire_lookup_self (st : RegState) (n : String) :
    plookup n (acquire st n).2.pools = some (acquire st n).1 := by
  unfold acquire
  cases hm : plookup n st.pools with
  | some q => simpa using hm
  | none => simp [plookup]

theorem runAcquires_lookup_preserve (l : List String) (st : RegState)
    (n : String) (p : Nat) (h : plookup n st.pools = some p) :
    plookup n (runAcquires st l).2.pools = some p := by
  induction l generalizing st with
  | nil => simpa [runAcquires] using h
  | cons m rest ih =>
    have hsnd : (runAcquires st (m :: rest)).2 =
        (runAcquires (acquire st m).2 rest).2 := rfl
    rw [hsnd]
    exact ih _ (acquire_lookup_preserve st m n p h)

theorem runAcquires_results (l : List String) (st : RegState) (n : String)
    (p : Nat) (h : (n, p) ∈ (runAcquires st l).1) :
    plookup n (runAcquires st l).2.pools = some p := by
  induction l generalizing st with
  | nil => simp [runAcquires] at h
  | cons m rest ih =>
    have hfst : (runAcquires st (m :: rest)).1 =
        (m, (acquire st m).1) :: (runAcquires (acquire st m).2 rest).1 := rfl
    have hsnd : (runAcquires st (m :: rest)).2 =
        (runAcquires (acquire st m).2 rest).2 := rfl
    rw [hfst] at h
    rw [hsnd]
    rcases List.mem_cons.mp h with heq | hmem
    · cases heq
      exact runAcquires_lookup_preserve rest _ _ _ (acquire_lookup_self st _)
    · exact ih _ hmem

theorem regInv_init : RegInv initRegState := by
  intro name
  simp [initRegState, plookup]

theorem acquire_inv (st : RegState) (m : String) (h : RegInv st) :
    RegInv (acquire st m).2 := by
  intro name
  unfold acquire
  cases hm : plookup m st.pools with
  | some q => simpa using h name
  | none =>
    show (m :: st.constructionLog).count name =
      (match plookup name ((m, st.nextId) :: st.pools) with
       | some _ => 1
       | none => 0)
    have hcount := h name
    by_cases hmn : m = name
    · subst hmn
      rw [hm] at hcount
      simp [List.count_cons, plookup, hcount]
    · simp only [List.count_cons, plookup, hmn, if_false]
      simpa [hmn] using hcount

theorem runAcquires_inv (l : List String) (st : RegState) (h : RegInv st) :
    RegInv (runAcquires st l).2 := by
  induction l generalizing st with
  | nil => simpa [runAcquires] using h
  | cons m rest ih =>
    have hsnd : (runAcquires st (m :: rest)).2 =
        (runAcquires (acquire st m).2 rest).2 := rfl
    rw [hsnd]
    exact ih _ (acquire_inv st m h)

theorem runAcquires_mem_lookup (l : List String) (st : RegState) (n : String)
    (h : n ∈ l) : ∃ p, plookup n (runAcquires st l).2.pools = some p := by
  induction l generalizing st with
  | nil => cases h
  | cons m rest ih =>
    have hsnd : (runAcquires st (m :: rest)).2 =
        (runAcquires (acquire st m).2 rest).2 := rfl
    rw [hsnd]
    rcases List.mem_cons.mp h with heq | hmem
    · subst heq
      exact ⟨_, runAcquires_lookup_preserve rest _ n _ (acquire_lookup_self st n)⟩
    · exact ih _ hmem

/-- C1: for every cluster name, all acquisitions of the SSH connection
pool return the same pool instance and the pool is constructed at most
once for the process lifetime — exactly once when the name is acquired at
all.  Concurrency is modelled by quantifying over every interleaving
(every sequence `reqs`) of the atomic registry critical sections of
`SSHClientDependency.__call__`, starting from the empty process-start
registry. -/
theorem c1_pool_acquired_once (reqs : List String) (name : String) :
    (∀ p q, (name, p) ∈ (runAcquires initRegState reqs).1 →
      (name, q) ∈ (runAcquires initRegState reqs).1 → p = q) ∧
    (runAcquires initRegState reqs).2.constructionLog.count name ≤ 1 ∧
    (name ∈ reqs →
      (runAcquires initRegState reqs).2.constructionLog.count name = 1) := by
  have hinv := runAcquires_inv reqs initRegState regInv_init
  refine ⟨?_, ?_, ?_⟩
  · intro p q hp hq
    have h1 := runAcquires_results reqs initRegState name p hp
    have h2 := runAcquires_results reqs initRegState name q hq
    rw [h1] at h2
    exact (Option.some.injEq _ _ ▸ h2).symm ▸ rfl
  · have := hinv name
    rw [this]
    cases plookup name (runAcquires initRegState reqs).2.pools <;> simp
  · intro hmem
    obtain ⟨p, hp⟩ := runAcquires_mem_lookup reqs initRegState name hmem
    have := hinv name
    rw [hp] at this
    exact this

/-- C1 witness: three interleaved acquisitions (two for cluster `"a"`)
construct the pool for `"a"` exactly once. -/
theorem c1_pool_acquired_once_witness :
    ("a" ∈ ["a", "b", "a"]) ∧
    (runAcquires initRegState ["a", "b", "a"]).2.constructionLog.count "a" = 1 :=
  ⟨by decide, (c1_pool_acquired_once ["a", "b", "a"] "a").2.2 (by decide)⟩

/-! ## C5: the bucket-ensure step is idempotent -/

/-- C5: running the bucket-ensure step of `S3Datatransfer.upload` a
second time for the same bucket never raises and never re-applies the
lifecycle policy (it returns the state unchanged); the lifecycle
configuration is applied exactly on a first successful creation and never
on an already-owned bucket; a creation error other than
`BucketAlreadyOwnedByYou` propagates. -/
theorem c5_ensure_bucket_idempotent (st st1 : S3State) (b : String)
    (h : ensure_bucket st b = .ok st1) :
    ensure_bucket st1 b = .ok st1 ∧
    (b ∉ st.owned → st1.lifecycleLog = b :: st.lifecycleLog ∧
      st1.owned = b :: st.owned) ∧
    (b ∈ st.owned → st1 = st) ∧
    (∀ st' : S3State, b ∉ st'.owned → b ∈ st'.foreign →
      ensure_bucket st' b = .error ()) := by
  unfold ensure_bucket create_bucket at h
  by_cases hb : b ∈ st.owned
  · rw [if_pos (by simpa using hb)] at h
    simp only [Except.ok.injEq] at h
    subst h
    refine ⟨?_, fun hn => absurd hb hn, fun _ => rfl, ?_⟩
    · unfold ensure_bucket create_bucket
      rw [if_pos (by simpa using hb)]
    · intro st' hn hf
      unfold ensure_bucket create_bucket
      rw [if_neg (by simpa using hn), if_pos (by simpa using hf)]
  · rw [if_neg (by simpa using hb)] at h
    by_cases hf : b ∈ st.foreign
    · rw [if_pos (by simpa using hf)] at h
      cases h
    · rw [if_neg (by simpa using hf)] at h
      simp only [Except.ok.injEq] at h
      subst h
      refine ⟨?_, fun _ => ⟨rfl, rfl⟩, fun hmem => absurd hmem hb, ?_⟩
      · unfold ensure_bucket create_bucket
        rw [if_pos (by simp [put_bucket_lifecycle])]
      · intro st' hn hf'
        unfold ensure_bucket create_bucket
        rw [if_neg (by simpa using hn), if_pos (by simpa using hf')]

/-- C5 witness: ensuring the bucket `"bkt"` on an empty store creates it
and applies the lifecycle once; the second run returns the same state
(no raise, no second lifecycle call). -/
theorem c5_ensure_bucket_idempotent_witness :
    ensure_bucket ⟨["bkt"], [], ["bkt"]⟩ "bkt" = .ok ⟨["bkt"], [], ["bkt"]⟩ ∧
    ("bkt" ∉ S3State.owned ⟨[], [], []⟩ →
      (S3State.lifecycleLog ⟨["bkt"], [], ["bkt"]⟩ = "bkt" :: []) ∧
      (S3State.owned ⟨["bkt"], [], ["bkt"]⟩ = "bkt" :: [])) :=
  have h := c5_ensure_bucket_idempotent ⟨[], [], []⟩ ⟨["bkt"], [], ["bkt"]⟩
    "bkt" rfl
  ⟨h.1, h.2.1⟩

/-! ## C7: a failed health cycle publishes a single unhealthy record -/

/-- C7: when the token exchange or decoding of a health cycle fails, no
probe results are published: the snapshot is replaced by the single
exception-kind record, marked unhealthy, whose message carries the
exception class name and — exactly when the exception text is non-empty —
the exception text; the triggering exception is re-raised alongside the
published snapshot. -/
theorem c7_health_cycle_failure (ex : ExcInfo) (now : Nat) :
    (clusterHealthCheck (.error ex) now).1 =
      some [healthExceptionRecord ex now] ∧
    (clusterHealthCheck (.error ex) now).2 = some ex ∧
    (healthExceptionRecord ex now).healthy = false ∧
    (healthExceptionRecord ex now).service_type = .exception ∧
    (healthExceptionRecord ex now).message = some (healthErrorMessage ex) ∧
    (ex.msg.length = 0 → healthErrorMessage ex =
      "Cluster HealthChecker execution failed with error: " ++ ex.className) ∧
    (0 < ex.msg.length → healthErrorMessage ex =
      "Cluster HealthChecker execution failed with error: " ++ ex.className
        ++ " - " ++ ex.msg) := by
  refine ⟨rfl, rfl, rfl, rfl, rfl, ?_, ?_⟩
  · intro h
    unfold healthErrorMessage
    rw [if_neg (by omega)]
  · intro h
    unfold healthErrorMessage
    rw [if_pos h]

/-- C7 witness: a concrete token-exchange failure (`TimeoutError` with a
non-empty text) yields the single unhealthy record and is re-raised. -/
theorem c7_health_cycle_failure_witness :
    (clusterHealthCheck (.error ⟨"TimeoutError", "no route"⟩) 5).1 =
      some [healthExceptionRecord ⟨"TimeoutError", "no route"⟩ 5] ∧
    healthErrorMessage ⟨"TimeoutError", "no route"⟩ =
      "Cluster HealthChecker execution failed with error: TimeoutError - no route" :=
  have h := c7_health_cycle_failure ⟨"TimeoutError", "no route"⟩ 5
  ⟨h.1, by
    have h7 := h.2.2.2.2.2.2
    rw [h7 (by decide)]
    rfl⟩

/-! ## C9: token verification reports four distinct error conditions -/

/-- C9: `authenticate` never collapses its failure modes: an unknown (or
absent) key identifier, an expired token, a structurally invalid token
and a decoded-but-inactive identity map to four pairwise distinct 401
responses, and an active decoded identity is accepted. -/
theorem c9_token_errors_distinct (keyIds : List String) (t : TokenView)
    (auth : ApiAuth) :
    (auth_from_token keyIds t = .keyError →
      authenticate keyIds t = .httpError 401 "Token's public key not found.") ∧
    (auth_from_token keyIds t = .expiredError →
      authenticate keyIds t = .httpError 401 "Access token expired") ∧
    (auth_from_token keyIds t = .jwtError →
      authenticate keyIds t = .httpError 401 "Access token is invalid.") ∧
    (auth_from_token keyIds t = .ok auth → auth.active = false →
      authenticate keyIds t = .httpError 401 "Inactive authentication") ∧
    (auth_from_token keyIds t = .ok auth → auth.active = true →
      authenticate keyIds t = .ok auth) ∧
    (∀ kid x5t id, t.header = .fields kid x5t → firstTruthy kid x5t = some id →
      keyIds.contains id = false → auth_from_token keyIds t = .keyError) ∧
    (∀ kid x5t id, t.header = .fields kid x5t → firstTruthy kid x5t = some id →
      keyIds.contains id = true → t.body = .expired →
      auth_from_token keyIds t = .expiredError) ∧
    (t.header = .malformed → auth_from_token keyIds t = .jwtError) ∧
    ((AuthResult.httpError 401 "Token's public key not found." ≠
        .httpError 401 "Access token expired") ∧
     (AuthResult.httpError 401 "Token's public key not found." ≠
        .httpError 401 "Access token is invalid.") ∧
     (AuthResult.httpError 401 "Token's public key not found." ≠
        .httpError 401 "Inactive authentication") ∧
     (AuthResult.httpError 401 "Access token expired" ≠
        .httpError 401 "Access token is invalid.") ∧
     (AuthResult.httpError 401 "Access token expired" ≠
        .httpError 401 "Inactive authentication") ∧
     (AuthResult.httpError 401 "Access token is invalid." ≠
        .httpError 401 "Inactive authentication")) := by
  refine ⟨?_, ?_, ?_, ?_, ?_, ?_, ?_, ?_, ?_⟩
  · intro h; unfold authenticate; rw [h]
  · intro h; unfold authenticate; rw [h]
  · intro h; unfold authenticate; rw [h]
  · intro h ha; unfold authenticate; rw [h]; simp [ha]
  · intro h ha; unfold authenticate; rw [h]; simp [ha]
  · intro kid x5t id hh hf hc
    unfold auth_from_token
    rw [hh]
    simp only [hf]
    rw [hc]
    simp
  · intro kid x5t id hh hf hc hb
    unfold auth_from_token
    rw [hh]
    simp only [hf]
    rw [hc, hb]
    simp
  · intro hh; unfold auth_from_token; rw [hh]
  · refine ⟨?_, ?_, ?_, ?_, ?_, ?_⟩ <;> decide

/-- C9 witness: four concrete tokens against the key cache `["k1"]`
exhibit the four distinct failures, and an active identity under a known
key is accepted. -/
theorem c9_token_errors_distinct_witness :
    authenticate ["k1"] ⟨.fields (some "k2") none, .ok ⟨"u", true⟩⟩ =
      .httpError 401 "Token's public key not found." ∧
    authenticate ["k1"] ⟨.fields (some "k1") none, .expired⟩ =
      .httpError 401 "Access token expired" ∧
    authenticate ["k1"] ⟨.malformed, .invalid⟩ =
      .httpError 401 "Access token is invalid." ∧
    authenticate ["k1"] ⟨.fields (some "k1") none, .ok ⟨"u", false⟩⟩ =
      .httpError 401 "Inactive authentication" ∧
    authenticate ["k1"] ⟨.fields (some "k1") none, .ok ⟨"u", true⟩⟩ =
      .ok ⟨"u", true⟩ :=
  ⟨(c9_token_errors_distinct ["k1"] ⟨.fields (some "k2") none, .ok ⟨"u", true⟩⟩
      ⟨"u", true⟩).1 (by decide),
   (c9_token_errors_distinct ["k1"] ⟨.fields (some "k1") none, .expired⟩
      ⟨"u", true⟩).2.1 (by decide),
   (c9_token_errors_distinct ["k1"] ⟨.malformed, .invalid⟩
      ⟨"u", true⟩).2.2.1 (by decide),
   (c9_token_errors_distinct ["k1"] ⟨.fields (some "k1") none, .ok ⟨"u", false⟩⟩
      ⟨"u", false⟩).2.2.2.1 (by decide) rfl,
   (c9_token_errors_distinct ["k1"] ⟨.fields (some "k1") none, .ok ⟨"u", true⟩⟩
      ⟨"u", true⟩).2.2.2.2.1 (by decide) rfl⟩

/-! ## C2: admission check — three outcomes plus "not found" -/

theorem file_system_health_some (sys : HPCCluster) (p : String) :
    file_system_health sys (some p) =
      (match findFilesystemRecord p (snapshotRecords sys.servicesHealth) with
       | none => .preconditionRequired
       | some service =>
         if service.healthy then .ok sys else .serviceUnavailable) := rfl

theorem scheduler_health_ne_notFound (sys : HPCCluster) :
    scheduler_health sys ≠ .notFound := by
  unfold scheduler_health
  rcases hf : findServiceRecord .scheduler (snapshotRecords sys.servicesHealth)
    with _ | r
  · simp [hf]
  · simp only [hf]
    by_cases h : r.healthy <;> simp [h]

theorem ssh_health_ne_notFound (sys : HPCCluster) :
    ssh_health sys ≠ .notFound := by
  unfold ssh_health
  rcases hf : findServiceRecord .ssh (snapshotRecords sys.servicesHealth)
    with _ | r
  · simp [hf]
  · simp only [hf]
    by_cases h : r.healthy <;> simp [h]

theorem file_system_health_ne_notFound (sys : HPCCluster)
    (path : Option String) : file_system_health sys path ≠ .notFound := by
  cases path with
  | none => simp [file_system_health]
  | some p =>
    rw [file_system_health_some]
    rcases hf : findFilesystemRecord p (snapshotRecords sys.servicesHealth)
      with _ | r
    · simp
    · by_cases h : r.healthy <;> simp [h]

/-- C2: for a configured cluster the admission check yields exactly one of
three outcomes determined by the health snapshot — no matching record:
precondition required (428); matching unhealthy record: service
unavailable (503); matching healthy record: success — for scheduler, ssh
and filesystem checks alike; an unknown cluster name yields the distinct
not-found outcome; and a matching filesystem record is one of filesystem
type whose monitored path is a string prefix of the requested path. -/
theorem c2_admission_three_outcomes (clusters : List HPCCluster)
    (name p : String) (path : Option String) :
    (clusters.find? (fun c => decide (c.name = name)) = none →
      serviceAvailabilityCall clusters .scheduler false name path = .notFound ∧
      serviceAvailabilityCall clusters .ssh false name path = .notFound ∧
      serviceAvailabilityCall clusters .filesystem false name path = .notFound) ∧
    (∀ sys, clusters.find? (fun c => decide (c.name = name)) = some sys →
      (findServiceRecord .scheduler (snapshotRecords sys.servicesHealth) = none →
        serviceAvailabilityCall clusters .scheduler false name path =
          .preconditionRequired) ∧
      (∀ r, findServiceRecord .scheduler (snapshotRecords sys.servicesHealth) =
          some r →
        serviceAvailabilityCall clusters .scheduler false name path =
          (if r.healthy then .ok sys else .serviceUnavailable)) ∧
      (findServiceRecord .ssh (snapshotRecords sys.servicesHealth) = none →
        serviceAvailabilityCall clusters .ssh false name path =
          .preconditionRequired) ∧
      (∀ r, findServiceRecord .ssh (snapshotRecords sys.servicesHealth) =
          some r →
        serviceAvailabilityCall clusters .ssh false name path =
          (if r.healthy then .ok sys else .serviceUnavailable)) ∧
      (findFilesystemRecord p (snapshotRecords sys.servicesHealth) = none →
        serviceAvailabilityCall clusters .filesystem false name (some p) =
          .preconditionRequired) ∧
      (∀ r, findFilesystemRecord p (snapshotRecords sys.servicesHealth) =
          some r →
        serviceAvailabilityCall clusters .filesystem false name (some p) =
          (if r.healthy then .ok sys else .serviceUnavailable))) ∧
    (∀ r records, findFilesystemRecord p records = some r →
      r.service_type = .filesystem ∧
      ∃ sp, r.path = some sp ∧ strStartsWith p sp = true) ∧
    (AdmissionOutcome.notFound ≠ .preconditionRequired ∧
     AdmissionOutcome.notFound ≠ .serviceUnavailable ∧
     AdmissionOutcome.preconditionRequired ≠ .serviceUnavailable ∧
     ∀ sys : HPCCluster, AdmissionOutcome.ok sys ≠ .notFound ∧
       AdmissionOutcome.ok sys ≠ .preconditionRequired ∧
       AdmissionOutcome.ok sys ≠ .serviceUnavailable) := by
  refine ⟨?_, ?_, ?_, ?_⟩
  · intro h
    refine ⟨?_, ?_, ?_⟩ <;> · unfold serviceAvailabilityCall; rw [h]
  · intro sys h
    refine ⟨?_, ?_, ?_, ?_, ?_, ?_⟩
    · intro hr
      unfold serviceAvailabilityCall
      rw [h]
      simp only [Bool.false_eq_true, if_false]
      unfold scheduler_health
      rw [hr]
    · intro r hr
      unfold serviceAvailabilityCall
      rw [h]
      simp only [Bool.false_eq_true, if_false]
      unfold scheduler_health
      rw [hr]
    · intro hr
      unfold serviceAvailabilityCall
      rw [h]
      simp only [Bool.false_eq_true, if_false]
      unfold ssh_health
      rw [hr]
    · intro r hr
      unfold serviceAvailabilityCall
      rw [h]
      simp only [Bool.false_eq_true, if_false]
      unfold ssh_health
      rw [hr]
    · intro hr
      unfold serviceAvailabilityCall
      rw [h]
      simp only [Bool.false_eq_true, if_false]
      rw [file_system_health_some, hr]
    · intro r hr
      unfold serviceAvailabilityCall
      rw [h]
      simp only [Bool.false_eq_true, if_false]
      rw [file_system_health_some, hr]
  · intro r records hr
    have hpred := List.find?_some hr
    simp only [Bool.and_eq_true, decide_eq_true_eq] at hpred
    refine ⟨hpred.1, ?_⟩
    rcases hp : r.path with _ | sp
    · rw [hp] at hpred
      exact absurd hpred.2 (by simp)
    · rw [hp] at hpred
      exact ⟨sp, rfl, hpred.2⟩
  · refine ⟨by decide, by decide, by decide, fun sys => ⟨?_, ?_, ?_⟩⟩ <;> simp

/-- C2 witness: against the concrete snapshot of `witnessCluster`, the
scheduler check succeeds, the ssh check (no record) is precondition
required, the filesystem check under `/scratch` (unhealthy record whose
path is a prefix of the requested path) is service unavailable, and an
unknown cluster name is not found. -/
theorem c2_admission_three_outcomes_witness :
    serviceAvailabilityCall [witnessCluster] .scheduler false "daint" none =
      .ok witnessCluster ∧
    serviceAvailabilityCall [witnessCluster] .ssh false "daint" none =
      .preconditionRequired ∧
    serviceAvailabilityCall [witnessCluster] .filesystem false "daint"
      (some "/scratch/u/file") = .serviceUnavailable ∧
    serviceAvailabilityCall [witnessCluster] .scheduler false "unknown" none =
      .notFound := by
  have h := c2_admission_three_outcomes [witnessCluster] "daint"
    "/scratch/u/file" none
  have hfound : ([witnessCluster].find?
      (fun c => decide (c.name = "daint"))) = some witnessCluster := by rfl
  have hs := (h.2.1 witnessCluster hfound).2.1
    { service_type := .scheduler, healthy := true } (by rfl)
  have hssh := (h.2.1 witnessCluster hfound).2.2.1 (by rfl)
  have hfs := (h.2.1 witnessCluster hfound).2.2.2.2.2
    { service_type := .filesystem, path := some "/scratch", healthy := false }
    (by rfl)
  have hnf := (c2_admission_three_outcomes [witnessCluster] "unknown"
    "/scratch/u/file" none).1 (by rfl)
  exact ⟨hs.trans rfl, hssh, hfs.trans rfl, hnf.1⟩

/-! ## C10: cluster-name normalisation and lookup -/

theorem availability_notFound_iff (clusters : List HPCCluster)
    (ty : HealthCheckType) (name : String) (path : Option String) :
    serviceAvailabilityCall clusters ty false name path = .notFound ↔
      ∀ c ∈ clusters, c.name ≠ name := by
  unfold serviceAvailabilityCall
  rcases hf : clusters.find? (fun c => decide (c.name = name)) with _ | sys
  · rw [hf]
    rw [List.find?_eq_none] at hf
    constructor
    · intro _ c hc
      simpa using hf c hc
    · intro _
      rfl
  · rw [hf]
    simp only [Bool.false_eq_true, if_false]
    constructor
    · intro h
      exfalso
      cases ty with
      | scheduler => exact scheduler_health_ne_notFound sys h
      | ssh => exact ssh_health_ne_notFound sys h
      | filesystem => exact file_system_health_ne_notFound sys path h
      | s3 => simp at h
      | exception => simp at h
    · intro hall
      exfalso
      have hmem := List.mem_of_find?_eq_some hf
      have hp := List.find?_some hf
      simp only [decide_eq_true_eq] at hp
      exact hall sys hmem hp

/-- C10 counterexample: the cluster configured with raw name `"Alpha"` is
stored under the normalised name `"alpha"`, and resolving it by the
casing `"Alpha"` — a letter casing of its own configured name — fails
with "not found", contradicting case-insensitive lookup. -/
theorem c10_lookup_not_case_insensitive :
    loadClusterName "Alpha" = "alpha" ∧
    serviceAvailabilityCall [{ name := loadClusterName "Alpha" }] .s3 false
      "Alpha" none = .notFound ∧
    serviceAvailabilityCall [{ name := loadClusterName "Alpha" }] .s3 false
      "alpha" none = .ok { name := loadClusterName "Alpha" } := by
  refine ⟨by decide, ?_, ?_⟩ <;> rfl

/-- C10 amended: configured cluster names are lowercased at load, but the
request-side lookup is an exact string match against the stored name: a
request resolves a cluster exactly when it spells the stored (lowercase)
name verbatim — so the lowercase spelling of any configured casing
resolves, any other name (including a non-lowercase casing of a
configured cluster) fails with the distinct "not found" error. -/
theorem c10_lookup_exact_on_normalized_names (clusters : List HPCCluster)
    (ty : HealthCheckType) (name : String) (path : Option String) :
    (serviceAvailabilityCall clusters ty false name path = .notFound ↔
      ∀ c ∈ clusters, c.name ≠ name) ∧
    (∀ raw c, c ∈ clusters → c.name = loadClusterName raw →
      serviceAvailabilityCall clusters ty false (loadClusterName raw) path ≠
        .notFound) := by
  refine ⟨availability_notFound_iff clusters ty name path, ?_⟩
  intro raw c hc hname h
  rw [availability_notFound_iff] at h
  exact h c hc hname

/-- C10 amended witness: the cluster stored for raw name `"Alpha"`
resolves under `"alpha"`, and `"Alpha"` matches no stored name. -/
theorem c10_lookup_exact_on_normalized_names_witness :
    serviceAvailabilityCall [{ name := loadClusterName "Alpha" }] .s3 false
      (loadClusterName "Alpha") none ≠ .notFound ∧
    (serviceAvailabilityCall [{ name := loadClusterName "Alpha" }] .s3 false
      "Alpha" none = .notFound ↔
      ∀ c ∈ [{ name := loadClusterName "Alpha" : HPCCluster }],
        c.name ≠ "Alpha") :=
  ⟨(c10_lookup_exact_on_normalized_names
      [{ name := loadClusterName "Alpha" }] .s3 (loadClusterName "Alpha")
      none).2 "Alpha" { name := loadClusterName "Alpha" }
      (List.mem_singleton.mpr rfl) rfl,
   (c10_lookup_exact_on_normalized_names
      [{ name := loadClusterName "Alpha" }] .s3 "Alpha" none).1⟩

/-! ## Trace lemmas shared by the transfer claims -/

theorem presignOp_action_eq (ep : Endpoint) (a : String) (t : Option String)
    (p : PresignParams) :
    presignAction (Event.s3 (presignOp ep a t p)) = some a := by
  unfold presignOp
  split <;> rfl

theorem presignOp_endpoint_eq (ep : Endpoint) (a : String) (t : Option String)
    (p : PresignParams) :
    presignEndpoint (Event.s3 (presignOp ep a t p)) = some ep := by
  unfold presignOp
  split <;> rfl

theorem presignOp_bucket_eq (ep : Endpoint) (a : String) (t : Option String)
    (p : PresignParams) :
    presignBucket (Event.s3 (presignOp ep a t p)) =
      some (tenantBucketName t p.bucket) := by
  by_cases h : strTruthy t <;> simp [presignOp, presignBucket, tenantBucketName, h]

theorem partNumberOf_presignOp (ep : Endpoint) (a : String) (t : Option String)
    (p : PresignParams) :
    partNumberOf (Event.s3 (presignOp ep a t p)) =
      (if a = "upload_part" then p.partNumber else none) := by
  unfold presignOp
  split <;> rfl

theorem partNumberOf_submitJob (w j : String) :
    partNumberOf (Event.submitJob w j) = none := rfl

theorem uploadPartNumbers_cons_none (e : Event) (l : List Event)
    (h : partNumberOf e = none) :
    uploadPartNumbers (e :: l) = uploadPartNumbers l := by
  unfold uploadPartNumbers
  rw [List.filterMap_cons, h]

theorem filterMap_some_list {α : Type} (g : α → Option α) :
    ∀ l : List α, (∀ a ∈ l, g a = some a) → List.filterMap g l = l := by
  intro l
  induction l with
  | nil => intro _; rfl
  | cons a l ih =>
    intro h
    rw [List.filterMap_cons, h a (by simp)]
    rw [ih fun b hb => h b (by simp [hb])]

theorem uploadPartNumbers_append (l1 l2 : List Event) :
    uploadPartNumbers (l1 ++ l2) =
      uploadPartNumbers l1 ++ uploadPartNumbers l2 := by
  unfold uploadPartNumbers
  exact List.filterMap_append l1 l2 partNumberOf

theorem uploadPartNumbers_parts (ep : Endpoint) (t : Option String)
    (b k uid : String) (size P : Nat) :
    uploadPartNumbers (partPresignEvents ep t b k uid size P) =
      List.range' 1 (ceilDivNat size P) := by
  unfold uploadPartNumbers partPresignEvents
  rw [List.filterMap_map]
  refine filterMap_some_list _ _ fun n _ => ?_
  show partNumberOf (Event.s3 (presignOp ep "upload_part" t
    { bucket := b, key := k, uploadId := some uid, partNumber := some n })) =
    some n
  rw [partNumberOf_presignOp]
  rfl

theorem mem_partPresignEvents (ep : Endpoint) (t : Option String)
    (b k uid : String) (size P : Nat) (e : Event)
    (h : e ∈ partPresignEvents ep t b k uid size P) :
    ∃ n, e = Event.s3 (presignOp ep "upload_part" t
      { bucket := b, key := k, uploadId := some uid, partNumber := some n }) := by
  unfold partPresignEvents at h
  rcases List.mem_map.mp h with ⟨n, _, rfl⟩
  exact ⟨n, rfl⟩

theorem completeUrlCount_cons (e : Event) (l : List Event) :
    completeUrlCount (e :: l) =
      (if presignAction e = some "complete_multipart_upload" then 1 else 0) +
        completeUrlCount l := by
  unfold completeUrlCount
  rw [List.filter_cons]
  by_cases h : presignAction e = some "complete_multipart_upload"
  · simp [h, Nat.add_comm]
  · simp [h]

theorem completeUrlCount_append (l1 l2 : List Event) :
    completeUrlCount (l1 ++ l2) =
      completeUrlCount l1 + completeUrlCount l2 := by
  unfold completeUrlCount
  rw [List.filter_append, List.length_append]

theorem completeUrlCount_parts (ep : Endpoint) (t : Option String)
    (b k uid : String) (size P : Nat) :
    completeUrlCount (partPresignEvents ep t b k uid size P) = 0 := by
  unfold completeUrlCount
  rw [List.length_eq_zero]
  rw [List.filter_eq_nil_iff]
  intro e he
  rcases mem_partPresignEvents ep t b k uid size P e he with ⟨n, rfl⟩
  simp [presignOp_action_eq]

/-! ## C3: part count is `ceil(fileSize / maxPartSize)` -/

theorem uploadPartNumbers_uploadTrace (cfg : S3Config)
    (username objectKey uploadId : String) (F : Nat)
    (cr : CreateBucketResult) (hcr : cr ≠ .otherError) :
    uploadPartNumbers
        (traceEvents (uploadTrace cfg username F objectKey uploadId cr)) =
      List.range' 1 (ceilDivNat F cfg.max_part_size) := by
  cases cr with
  | otherError => exact absurd rfl hcr
  | ok =>
    rw [show traceEvents (uploadTrace cfg username F objectKey uploadId .ok) =
      [Event.s3 (.createBucket (bucketNameFor cfg username)),
       Event.s3 (.putLifecycle (bucketNameFor cfg username))] ++
      [Event.s3 (.createMultipart (bucketNameFor cfg username) objectKey)] ++
      partPresignEvents .pub cfg.tenant (bucketNameFor cfg username) objectKey
        uploadId F cfg.max_part_size ++
      [Event.s3 (presignOp .pub "complete_multipart_upload" cfg.tenant
          { bucket := bucketNameFor cfg username, key := objectKey,
            uploadId := some uploadId }),
       Event.s3 (presignOp .priv "get_object" cfg.tenant
          { bucket := bucketNameFor cfg username, key := objectKey }),
       Event.s3 (presignOp .priv "head_object" cfg.tenant
          { bucket := bucketNameFor cfg username, key := objectKey }),
       Event.submitJob (cfg.work_dir ++ "/" ++ username) "IngressFileTransfer"]
      from rfl]
    rw [uploadPartNumbers_append, uploadPartNumbers_append,
      uploadPartNumbers_append, uploadPartNumbers_parts]
    rw [show uploadPartNumbers
      [Event.s3 (.createBucket (bucketNameFor cfg username)),
       Event.s3 (.putLifecycle (bucketNameFor cfg username))] = [] from rfl]
    rw [show uploadPartNumbers
      [Event.s3 (.createMultipart (bucketNameFor cfg username) objectKey)] = []
      from rfl]
    simp only [uploadPartNumbers, List.filterMap_cons, partNumberOf_presignOp,
      partNumberOf_submitJob, ite_self, List.filterMap_nil]
    simp
  | alreadyOwned =>
    rw [show traceEvents
        (uploadTrace cfg username F objectKey uploadId .alreadyOwned) =
      [Event.s3 (.createBucket (bucketNameFor cfg username))] ++
      [Event.s3 (.createMultipart (bucketNameFor cfg username) objectKey)] ++
      partPresignEvents .pub cfg.tenant (bucketNameFor cfg username) objectKey
        uploadId F cfg.max_part_size ++
      [Event.s3 (presignOp .pub "complete_multipart_upload" cfg.tenant
          { bucket := bucketNameFor cfg username, key := objectKey,
            uploadId := some uploadId }),
       Event.s3 (presignOp .priv "get_object" cfg.tenant
          { bucket := bucketNameFor cfg username, key := objectKey }),
       Event.s3 (presignOp .priv "head_object" cfg.tenant
          { bucket := bucketNameFor cfg username, key := objectKey }),
       Event.submitJob (cfg.work_dir ++ "/" ++ username) "IngressFileTransfer"]
      from rfl]
    rw [uploadPartNumbers_append, uploadPartNumbers_append,
      uploadPartNumbers_append, uploadPartNumbers_parts]
    rw [show uploadPartNumbers
      [Event.s3 (.createBucket (bucketNameFor cfg username))] = [] from rfl]
    rw [show uploadPartNumbers
      [Event.s3 (.createMultipart (bucketNameFor cfg username) objectKey)] = []
      from rfl]
    simp only [uploadPartNumbers, List.filterMap_cons, partNumberOf_presignOp,
      partNumberOf_submitJob, ite_self, List.filterMap_nil]
    simp

theorem uploadTrace_events (cfg : S3Config) (username objectKey uploadId : String)
    (F : Nat) (cr : CreateBucketResult) (ensure : List Event)
    (h : ensureEvents (bucketNameFor cfg username) (bucketNameFor cfg username)
      cr = some ensure) :
    traceEvents (uploadTrace cfg username F objectKey uploadId cr) =
      ensure ++
      [Event.s3 (.createMultipart (bucketNameFor cfg username) objectKey)] ++
      partPresignEvents .pub cfg.tenant (bucketNameFor cfg username) objectKey
        uploadId F cfg.max_part_size ++
      [Event.s3 (presignOp .pub "complete_multipart_upload" cfg.tenant
          { bucket := bucketNameFor cfg username, key := objectKey,
            uploadId := some uploadId }),
       Event.s3 (presignOp .priv "get_object" cfg.tenant
          { bucket := bucketNameFor cfg username, key := objectKey }),
       Event.s3 (presignOp .priv "head_object" cfg.tenant
          { bucket := bucketNameFor cfg username, key := objectKey }),
       Event.submitJob (cfg.work_dir ++ "/" ++ username)
         "IngressFileTransfer"] := by
  simp only [uploadTrace]
  rw [h]
  rfl

theorem downloadTrace_events (cfg : S3Config)
    (username source_path objectKey uploadId : String) (stat_size : Nat)
    (cr : CreateBucketResult) (ensure : List Event)
    (h : ensureEvents username (bucketNameFor cfg username) cr = some ensure) :
    traceEvents (downloadTrace cfg username source_path stat_size objectKey
        uploadId cr) =
      Event.sshStat source_path ::
      (ensure ++
      [Event.s3 (.createMultipart (bucketNameFor cfg username) objectKey)] ++
      partPresignEvents .priv cfg.tenant (bucketNameFor cfg username) objectKey
        uploadId stat_size cfg.max_part_size ++
      [Event.s3 (presignOp .priv "complete_multipart_upload" cfg.tenant
          { bucket := bucketNameFor cfg username, key := objectKey,
            uploadId := some uploadId }),
       Event.submitJob (cfg.work_dir ++ "/" ++ username) "OutgressFileTransfer",
       Event.s3 (presignOp .pub "get_object" cfg.tenant
          { bucket := bucketNameFor cfg username, key := objectKey })]) := by
  simp only [downloadTrace]
  rw [h]
  rfl

theorem uploadPartNumbers_ensure (createTarget lifecycleTarget : String)
    (cr : CreateBucketResult) (ensure : List Event)
    (h : ensureEvents createTarget lifecycleTarget cr = some ensure) :
    uploadPartNumbers ensure = [] := by
  cases cr <;> simp only [ensureEvents] at h <;> cases h <;> rfl

theorem completeUrlCount_ensure (createTarget lifecycleTarget : String)
    (cr : CreateBucketResult) (ensure : List Event)
    (h : ensureEvents createTarget lifecycleTarget cr = some ensure) :
    completeUrlCount ensure = 0 := by
  cases cr <;> simp only [ensureEvents] at h <;> cases h <;> rfl

theorem uploadPartNumbers_downloadTrace (cfg : S3Config)
    (username source_path objectKey uploadId : String) (stat_size : Nat)
    (cr : CreateBucketResult) (hcr : cr ≠ .otherError) :
    uploadPartNumbers (traceEvents (downloadTrace cfg username source_path
        stat_size objectKey uploadId cr)) =
      List.range' 1 (ceilDivNat stat_size cfg.max_part_size) := by
  have hens : ∃ ensure, ensureEvents username (bucketNameFor cfg username) cr =
      some ensure := by
    cases cr with
    | otherError => exact absurd rfl hcr
    | ok => exact ⟨_, rfl⟩
    | alreadyOwned => exact ⟨_, rfl⟩
  rcases hens with ⟨ensure, h⟩
  rw [downloadTrace_events cfg username source_path objectKey uploadId
    stat_size cr ensure h]
  rw [uploadPartNumbers_cons_none (Event.sshStat source_path) _ rfl]
  rw [uploadPartNumbers_append, uploadPartNumbers_append,
    uploadPartNumbers_append, uploadPartNumbers_parts]
  rw [uploadPartNumbers_ensure username (bucketNameFor cfg username) cr
    ensure h]
  rw [show uploadPartNumbers
    [Event.s3 (.createMultipart (bucketNameFor cfg username) objectKey)] = []
    from rfl]
  simp only [uploadPartNumbers, List.filterMap_cons, partNumberOf_presignOp,
    partNumberOf_submitJob, ite_self, List.filterMap_nil]
  simp

theorem ensureEvents_isSome (ct lt : String) (cr : CreateBucketResult)
    (hcr : cr ≠ .otherError) : ∃ e, ensureEvents ct lt cr = some e := by
  cases cr with
  | otherError => exact absurd rfl hcr
  | ok => exact ⟨_, rfl⟩
  | alreadyOwned => exact ⟨_, rfl⟩

theorem completeUrlCount_uploadTrace (cfg : S3Config)
    (username objectKey uploadId : String) (F : Nat)
    (cr : CreateBucketResult) (hcr : cr ≠ .otherError) :
    completeUrlCount
      (traceEvents (uploadTrace cfg username F objectKey uploadId cr)) = 1 := by
  obtain ⟨ensure, h⟩ := ensureEvents_isSome (bucketNameFor cfg username)
    (bucketNameFor cfg username) cr hcr
  rw [uploadTrace_events cfg username objectKey uploadId F cr ensure h]
  rw [completeUrlCount_append, completeUrlCount_append, completeUrlCount_append]
  rw [completeUrlCount_ensure _ _ _ _ h, completeUrlCount_parts]
  rw [show completeUrlCount
    [Event.s3 (.createMultipart (bucketNameFor cfg username) objectKey)] = 0
    from rfl]
  rw [completeUrlCount_cons, completeUrlCount_cons, completeUrlCount_cons,
    completeUrlCount_cons]
  rw [presignOp_action_eq, presignOp_action_eq, presignOp_action_eq]
  simp [presignAction, completeUrlCount]

theorem completeUrlCount_downloadTrace (cfg : S3Config)
    (username source_path objectKey uploadId : String) (stat_size : Nat)
    (cr : CreateBucketResult) (hcr : cr ≠ .otherError) :
    completeUrlCount (traceEvents (downloadTrace cfg username source_path
      stat_size objectKey uploadId cr)) = 1 := by
  obtain ⟨ensure, h⟩ := ensureEvents_isSome username
    (bucketNameFor cfg username) cr hcr
  rw [downloadTrace_events cfg username source_path objectKey uploadId
    stat_size cr ensure h]
  rw [completeUrlCount_cons]
  rw [show (if presignAction (Event.sshStat source_path) =
    some "complete_multipart_upload" then 1 else 0) = 0 from rfl]
  rw [completeUrlCount_append, completeUrlCount_append, completeUrlCount_append]
  rw [completeUrlCount_ensure _ _ _ _ h, completeUrlCount_parts]
  rw [show completeUrlCount
    [Event.s3 (.createMultipart (bucketNameFor cfg username) objectKey)] = 0
    from rfl]
  rw [completeUrlCount_cons, completeUrlCount_cons, completeUrlCount_cons]
  rw [presignOp_action_eq, presignOp_action_eq]
  simp [presignAction, completeUrlCount]

theorem submitJob_mem_uploadTrace (cfg : S3Config)
    (username objectKey uploadId : String) (F : Nat)
    (cr : CreateBucketResult) (hcr : cr ≠ .otherError) :
    Event.submitJob (cfg.work_dir ++ "/" ++ username) "IngressFileTransfer" ∈
      traceEvents (uploadTrace cfg username F objectKey uploadId cr) := by
  obtain ⟨ensure, h⟩ := ensureEvents_isSome (bucketNameFor cfg username)
    (bucketNameFor cfg username) cr hcr
  rw [uploadTrace_events cfg username objectKey uploadId F cr ensure h]
  simp

/-- C3: both transfer operations issue exactly `ceil(F / maxPartSize)`
part-upload presign requests, numbered `1` through the count
(`List.range' 1 c`), plus exactly one `complete_multipart_upload` presign
request; the ingress job is submitted with working directory
`{workDir}/{username}`; a zero file size yields zero part URLs (the total
`ceilDivNat` raises no division error); and the 5 GiB file / 2 GiB part
scenario yields exactly 3 parts. -/
theorem c3_part_count (cfg : S3Config)
    (username source_path objectKey uploadId : String) (F : Nat)
    (cr : CreateBucketResult) (hP : 0 < cfg.max_part_size)
    (hcr : cr ≠ .otherError) :
    uploadPartNumbers
        (traceEvents (uploadTrace cfg username F objectKey uploadId cr)) =
      List.range' 1 (ceilDivNat F cfg.max_part_size) ∧
    uploadPartNumbers (traceEvents (downloadTrace cfg username source_path F
        objectKey uploadId cr)) =
      List.range' 1 (ceilDivNat F cfg.max_part_size) ∧
    completeUrlCount
      (traceEvents (uploadTrace cfg username F objectKey uploadId cr)) = 1 ∧
    completeUrlCount (traceEvents (downloadTrace cfg username source_path F
      objectKey uploadId cr)) = 1 ∧
    Event.submitJob (cfg.work_dir ++ "/" ++ username) "IngressFileTransfer" ∈
      traceEvents (uploadTrace cfg username F objectKey uploadId cr) ∧
    (F = 0 → uploadPartNumbers
      (traceEvents (uploadTrace cfg username F objectKey uploadId cr)) = []) ∧
    ceilDivNat 0 cfg.max_part_size = 0 ∧
    ceilDivNat (5 * 2 ^ 30) (2 * 2 ^ 30) = 3 := by
  have hzero : ceilDivNat 0 cfg.max_part_size = 0 := by
    unfold ceilDivNat
    exact Nat.div_eq_of_lt (by omega)
  refine ⟨uploadPartNumbers_uploadTrace cfg username objectKey uploadId F cr hcr,
    uploadPartNumbers_downloadTrace cfg username source_path objectKey uploadId
      F cr hcr,
    completeUrlCount_uploadTrace cfg username objectKey uploadId F cr hcr,
    completeUrlCount_downloadTrace cfg username source_path objectKey uploadId
      F cr hcr,
    submitJob_mem_uploadTrace cfg username objectKey uploadId F cr hcr,
    ?_, hzero, by decide⟩
  intro hF
  subst hF
  rw [uploadPartNumbers_uploadTrace cfg username objectKey uploadId 0 cr hcr,
    hzero]
  rfl

/-- C3 witness: a 5 GiB upload with 2 GiB parts issues part URLs numbered
1, 2, 3 and one completion URL; the ingress job directory is
`/wd/u`; a 0-byte upload issues no part URLs. -/
theorem c3_part_count_witness :
    uploadPartNumbers
        (traceEvents (uploadTrace cfgW "u" (5 * 2 ^ 30) "k" "uid" .ok)) =
      [1, 2, 3] ∧
    completeUrlCount
      (traceEvents (uploadTrace cfgW "u" (5 * 2 ^ 30) "k" "uid" .ok)) = 1 ∧
    Event.submitJob "/wd/u" "IngressFileTransfer" ∈
      traceEvents (uploadTrace cfgW "u" (5 * 2 ^ 30) "k" "uid" .ok) ∧
    uploadPartNumbers (traceEvents (uploadTrace cfgW "u" 0 "k" "uid" .ok)) =
      [] := by
  have h1 := c3_part_count cfgW "u" "/src" "k" "uid" (5 * 2 ^ 30) .ok
    (by decide) (by decide)
  have h2 := c3_part_count cfgW "u" "/src" "k" "uid" 0 .ok
    (by decide) (by decide)
  refine ⟨?_, h1.2.2.1, ?_, h2.2.2.2.2.2.1 rfl⟩
  · rw [h1.1]
    rfl
  · exact h1.2.2.2.2.1

/-! ## C6: download — stat first, private part/complete URLs, public get
URL only after job submission -/

theorem presignNone_ensure (ct lt : String) (cr : CreateBucketResult)
    (ensure : List Event) (hcr : cr ≠ .otherError)
    (h : ensureEvents ct lt cr = some ensure) :
    ∀ e ∈ ensure, presignAction e = none ∧ presignEndpoint e = none := by
  cases cr with
  | ok =>
    simp only [ensureEvents] at h
    cases h
    intro e he
    rcases List.mem_cons.mp he with rfl | he2
    · exact ⟨rfl, rfl⟩
    · rcases List.mem_singleton.mp he2 with rfl
      exact ⟨rfl, rfl⟩
  | alreadyOwned =>
    simp only [ensureEvents] at h
    cases h
    intro e he
    rcases List.mem_singleton.mp he with rfl
    exact ⟨rfl, rfl⟩
  | otherError => exact absurd rfl hcr

theorem dropLast_append_singleton {α : Type} (l : List α) (a : α) :
    (l ++ [a]).dropLast = l := by
  simp

/-- C6: in the download operation the source path is stat-ed over the SSH
session before anything else; every `upload_part` and every
`complete_multipart_upload` presign request goes to the private endpoint;
the trace ends with the egress job submission immediately followed by the
public `get_object` presign request; and no event before the final one
addresses the public endpoint — so the end-user download URL is issued
only after the job was submitted. -/
theorem c6_download_private_then_public (cfg : S3Config)
    (username source_path objectKey uploadId : String) (stat_size : Nat)
    (cr : CreateBucketResult) (hcr : cr ≠ .otherError) :
    (∃ rest, traceEvents (downloadTrace cfg username source_path stat_size
        objectKey uploadId cr) = Event.sshStat source_path :: rest) ∧
    (∀ e ∈ traceEvents (downloadTrace cfg username source_path stat_size
        objectKey uploadId cr),
      (presignAction e = some "upload_part" ∨
        presignAction e = some "complete_multipart_upload") →
      presignEndpoint e = some .priv) ∧
    (∃ pre, traceEvents (downloadTrace cfg username source_path stat_size
        objectKey uploadId cr) =
      pre ++ [Event.submitJob (cfg.work_dir ++ "/" ++ username)
          "OutgressFileTransfer",
        Event.s3 (presignOp .pub "get_object" cfg.tenant
          { bucket := bucketNameFor cfg username, key := objectKey })]) ∧
    (∀ e ∈ (traceEvents (downloadTrace cfg username source_path stat_size
        objectKey uploadId cr)).dropLast,
      presignEndpoint e ≠ some .pub) := by
  obtain ⟨ensure, h⟩ := ensureEvents_isSome username
    (bucketNameFor cfg username) cr hcr
  have hens := presignNone_ensure username (bucketNameFor cfg username) cr
    ensure hcr h
  have hparts : ∀ e ∈ partPresignEvents .priv cfg.tenant
      (bucketNameFor cfg username) objectKey uploadId stat_size
      cfg.max_part_size,
      presignEndpoint e = some .priv ∧ presignAction e = some "upload_part" :=
    by
    intro e he
    rcases mem_partPresignEvents _ _ _ _ _ _ _ e he with ⟨n, rfl⟩
    exact ⟨presignOp_endpoint_eq _ _ _ _, presignOp_action_eq _ _ _ _⟩
  rw [downloadTrace_events cfg username source_path objectKey uploadId
    stat_size cr ensure h]
  refine ⟨⟨_, rfl⟩, ?_, ?_, ?_⟩
  · intro e he hact
    rcases List.mem_cons.mp he with rfl | he1
    · simp [presignAction] at hact
    · simp only [List.mem_append] at he1
      rcases he1 with ((he2 | he2) | he2) | he2
      · rcases hact with h' | h' <;> rw [(hens e he2).1] at h' <;> cases h'
      · rcases List.mem_singleton.mp he2 with rfl
        simp [presignAction] at hact
      · exact (hparts e he2).1
      · rcases List.mem_cons.mp he2 with rfl | he3
        · exact presignOp_endpoint_eq _ _ _ _
        · rcases List.mem_cons.mp he3 with rfl | he4
          · simp [presignAction] at hact
          · rcases List.mem_singleton.mp he4 with rfl
            rw [presignOp_action_eq] at hact
            rcases hact with h' | h' <;> exact absurd h' (by decide)
  · refine ⟨Event.sshStat source_path ::
      (ensure ++
      [Event.s3 (.createMultipart (bucketNameFor cfg username) objectKey)] ++
      partPresignEvents .priv cfg.tenant (bucketNameFor cfg username)
        objectKey uploadId stat_size cfg.max_part_size ++
      [Event.s3 (presignOp .priv "complete_multipart_upload" cfg.tenant
        { bucket := bucketNameFor cfg username, key := objectKey,
          uploadId := some uploadId })]), ?_⟩
    simp
  · rw [show (Event.sshStat source_path ::
      (ensure ++
      [Event.s3 (.createMultipart (bucketNameFor cfg username) objectKey)] ++
      partPresignEvents .priv cfg.tenant (bucketNameFor cfg username)
        objectKey uploadId stat_size cfg.max_part_size ++
      [Event.s3 (presignOp .priv "complete_multipart_upload" cfg.tenant
          { bucket := bucketNameFor cfg username, key := objectKey,
            uploadId := some uploadId }),
        Event.submitJob (cfg.work_dir ++ "/" ++ username)
          "OutgressFileTransfer",
        Event.s3 (presignOp .pub "get_object" cfg.tenant
          { bucket := bucketNameFor cfg username, key := objectKey })])) =
      (Event.sshStat source_path ::
      (ensure ++
      [Event.s3 (.createMultipart (bucketNameFor cfg username) objectKey)] ++
      partPresignEvents .priv cfg.tenant (bucketNameFor cfg username)
        objectKey uploadId stat_size cfg.max_part_size ++
      [Event.s3 (presignOp .priv "complete_multipart_upload" cfg.tenant
          { bucket := bucketNameFor cfg username, key := objectKey,
            uploadId := some uploadId }),
        Event.submitJob (cfg.work_dir ++ "/" ++ username)
          "OutgressFileTransfer"])) ++
      [Event.s3 (presignOp .pub "get_object" cfg.tenant
        { bucket := bucketNameFor cfg username, key := objectKey })]
      from by simp]
    rw [dropLast_append_singleton]
    intro e he
    rcases List.mem_cons.mp he with rfl | he1
    · simp [presignEndpoint]
    · simp only [List.mem_append] at he1
      rcases he1 with ((he2 | he2) | he2) | he2
      · rw [(hens e he2).2]
        simp
      · rcases List.mem_singleton.mp he2 with rfl
        simp [presignEndpoint]
      · rw [(hparts e he2).1]
        decide
      · rcases List.mem_cons.mp he2 with rfl | he3
        · rw [presignOp_endpoint_eq]
          decide
        · rcases List.mem_singleton.mp he3 with rfl
          simp [presignEndpoint]

/-- C6 witness: in the concrete 5 GiB download, the trace starts with the
stat of the source path and no event before the final one addresses the
public endpoint. -/
theorem c6_download_private_then_public_witness :
    (∃ rest, traceEvents (downloadTrace cfgW "u" "/src/f" (5 * 2 ^ 30) "k"
      "uid" .ok) = Event.sshStat "/src/f" :: rest) ∧
    (∀ e ∈ (traceEvents (downloadTrace cfgW "u" "/src/f" (5 * 2 ^ 30) "k"
      "uid" .ok)).dropLast, presignEndpoint e ≠ some .pub) :=
  have h := c6_download_private_then_public cfgW "u" "/src/f" "k" "uid"
    (5 * 2 ^ 30) .ok (by decide)
  ⟨h.1, h.2.2.2⟩

/-! ## C8: tenant qualification of bucket names -/

theorem presignBucket_ensure (ct lt : String) (cr : CreateBucketResult)
    (ensure : List Event) (hcr : cr ≠ .otherError)
    (h : ensureEvents ct lt cr = some ensure) :
    ∀ e ∈ ensure, presignBucket e = none := by
  cases cr with
  | ok =>
    simp only [ensureEvents] at h
    cases h
    intro e he
    rcases List.mem_cons.mp he with rfl | he2
    · rfl
    · rcases List.mem_singleton.mp he2 with rfl
      rfl
  | alreadyOwned =>
    simp only [ensureEvents] at h
    cases h
    intro e he
    rcases List.mem_singleton.mp he with rfl
    rfl
  | otherError => exact absurd rfl hcr

/-- C8 counterexample: with tenant `"ten"` configured, the
multipart-initiation and bucket-creation requests of an upload carry the
plain bucket name `"bob"`, not `"ten:bob"` — so not every storage request
parameter is tenant-qualified. -/
theorem c8_direct_requests_not_tenant_qualified :
    Event.s3 (.createMultipart "bob" "k") ∈
      traceEvents (uploadTrace cfgTen "bob" 1 "k" "uid" .ok) ∧
    Event.s3 (.createBucket "bob") ∈
      traceEvents (uploadTrace cfgTen "bob" 1 "k" "uid" .ok) ∧
    Event.s3 (.createMultipart ("ten" ++ ":" ++ "bob") "k") ∉
      traceEvents (uploadTrace cfgTen "bob" 1 "k" "uid" .ok) ∧
    ("ten" ++ ":" ++ "bob" : String) ≠ "bob" := by decide

/-- C8 amended: the tenant rewrite applies to presigned-URL requests
only.  Every presign request of an upload or download addresses
`tenantBucketName tenant bucket` — `"T:B"` when a tenant `T` is
configured and plain `B` otherwise — while the direct bucket-creation,
lifecycle-configuration and multipart-initiation requests always carry
the unqualified bucket name. -/
theorem c8_presign_tenant_qualified (cfg : S3Config)
    (username source_path objectKey uploadId : String) (F stat_size : Nat)
    (cr : CreateBucketResult) (hcr : cr ≠ .otherError) :
    (∀ e ∈ traceEvents (uploadTrace cfg username F objectKey uploadId cr),
      presignBucket e = none ∨
      presignBucket e =
        some (tenantBucketName cfg.tenant (bucketNameFor cfg username))) ∧
    (∀ e ∈ traceEvents (downloadTrace cfg username source_path stat_size
        objectKey uploadId cr),
      presignBucket e = none ∨
      presignBucket e =
        some (tenantBucketName cfg.tenant (bucketNameFor cfg username))) ∧
    (∀ t, cfg.tenant = some t → t ≠ "" →
      tenantBucketName cfg.tenant (bucketNameFor cfg username) =
        t ++ ":" ++ bucketNameFor cfg username) ∧
    (cfg.tenant = none →
      tenantBucketName cfg.tenant (bucketNameFor cfg username) =
        bucketNameFor cfg username) ∧
    (∀ b, Event.s3 (.createBucket b) ∈
        traceEvents (uploadTrace cfg username F objectKey uploadId cr) →
      b = bucketNameFor cfg username) ∧
    (∀ b, Event.s3 (.putLifecycle b) ∈
        traceEvents (uploadTrace cfg username F objectKey uploadId cr) →
      b = bucketNameFor cfg username) ∧
    (∀ b k2, Event.s3 (.createMultipart b k2) ∈
        traceEvents (uploadTrace cfg username F objectKey uploadId cr) →
      b = bucketNameFor cfg username) := by
  obtain ⟨ensure, h⟩ := ensureEvents_isSome (bucketNameFor cfg username)
    (bucketNameFor cfg username) cr hcr
  obtain ⟨ensureD, hD⟩ := ensureEvents_isSome username
    (bucketNameFor cfg username) cr hcr
  have hensP := presignBucket_ensure (bucketNameFor cfg username)
    (bucketNameFor cfg username) cr ensure hcr h
  have hensDP := presignBucket_ensure username (bucketNameFor cfg username)
    cr ensureD hcr hD
  have hpartsB : ∀ ep sz, ∀ e ∈ partPresignEvents ep cfg.tenant
      (bucketNameFor cfg username) objectKey uploadId sz cfg.max_part_size,
      presignBucket e =
        some (tenantBucketName cfg.tenant (bucketNameFor cfg username)) := by
    intro ep sz e he
    rcases mem_partPresignEvents _ _ _ _ _ _ _ e he with ⟨n, rfl⟩
    exact presignOp_bucket_eq _ _ _ _
  refine ⟨?_, ?_, ?_, ?_, ?_, ?_, ?_⟩
  · rw [uploadTrace_events cfg username objectKey uploadId F cr ensure h]
    intro e he
    simp only [List.mem_append] at he
    rcases he with ((he2 | he2) | he2) | he2
    · exact Or.inl (hensP e he2)
    · rcases List.mem_singleton.mp he2 with rfl
      exact Or.inl rfl
    · exact Or.inr (hpartsB .pub F e he2)
    · rcases List.mem_cons.mp he2 with rfl | he3
      · exact Or.inr (presignOp_bucket_eq _ _ _ _)
      · rcases List.mem_cons.mp he3 with rfl | he4
        · exact Or.inr (presignOp_bucket_eq _ _ _ _)
        · rcases List.mem_cons.mp he4 with rfl | he5
          · exact Or.inr (presignOp_bucket_eq _ _ _ _)
          · rcases List.mem_singleton.mp he5 with rfl
            exact Or.inl rfl
  · rw [downloadTrace_events cfg username source_path objectKey uploadId
      stat_size cr ensureD hD]
    intro e he
    rcases List.mem_cons.mp he with rfl | he1
    · exact Or.inl rfl
    · simp only [List.mem_append] at he1
      rcases he1 with ((he2 | he2) | he2) | he2
      · exact Or.inl (hensDP e he2)
      · rcases List.mem_singleton.mp he2 with rfl
        exact Or.inl rfl
      · exact Or.inr (hpartsB .priv stat_size e he2)
      · rcases List.mem_cons.mp he2 with rfl | he3
        · exact Or.inr (presignOp_bucket_eq _ _ _ _)
        · rcases List.mem_cons.mp he3 with rfl | he4
          · exact Or.inl rfl
          · rcases List.mem_singleton.mp he4 with rfl
            exact Or.inr (presignOp_bucket_eq _ _ _ _)
  · intro t ht hne
    unfold tenantBucketName
    rw [ht]
    rw [if_pos (by simpa [strTruthy] using hne)]
    rfl
  · intro ht
    unfold tenantBucketName
    rw [ht]
    rfl
  · rw [uploadTrace_events cfg username objectKey uploadId F cr ensure h]
    intro b hb
    simp only [List.mem_append] at hb
    rcases hb with ((hb2 | hb2) | hb2) | hb2
    · cases cr with
      | ok =>
        simp only [ensureEvents] at h
        cases h
        rcases List.mem_cons.mp hb2 with heq | hb3
        · cases heq; rfl
        · rcases List.mem_singleton.mp hb3 with heq; cases heq
      | alreadyOwned =>
        simp only [ensureEvents] at h
        cases h
        rcases List.mem_singleton.mp hb2 with heq
        cases heq
        rfl
      | otherError => exact absurd rfl hcr
    · rcases List.mem_singleton.mp hb2 with heq; cases heq
    · rcases mem_partPresignEvents _ _ _ _ _ _ _ _ hb2 with ⟨n, hn⟩
      exact absurd hn (by unfold presignOp; split <;> simp)
    · rcases List.mem_cons.mp hb2 with heq | hb3
      · exact absurd heq (by unfold presignOp; split <;> simp)
      · rcases List.mem_cons.mp hb3 with heq | hb4
        · exact absurd heq (by unfold presignOp; split <;> simp)
        · rcases List.mem_cons.mp hb4 with heq | hb5
          · exact absurd heq (by unfold presignOp; split <;> simp)
          · rcases List.mem_singleton.mp hb5 with heq; cases heq
  · rw [uploadTrace_events cfg username objectKey uploadId F cr ensure h]
    intro b hb
    simp only [List.mem_append] at hb
    rcases hb with ((hb2 | hb2) | hb2) | hb2
    · cases cr with
      | ok =>
        simp only [ensureEvents] at h
        cases h
        rcases List.mem_cons.mp hb2 with heq | hb3
        · cases heq
        · rcases List.mem_singleton.mp hb3 with heq
          cases heq
          rfl
      | alreadyOwned =>
        simp only [ensureEvents] at h
        cases h
        rcases List.mem_singleton.mp hb2 with heq
        cases heq
      | otherError => exact absurd rfl hcr
    · rcases List.mem_singleton.mp hb2 with heq; cases heq
    · rcases mem_partPresignEvents _ _ _ _ _ _ _ _ hb2 with ⟨n, hn⟩
      exact absurd hn (by unfold presignOp; split <;> simp)
    · rcases List.mem_cons.mp hb2 with heq | hb3
      · exact absurd heq (by unfold presignOp; split <;> simp)
      · rcases List.mem_cons.mp hb3 with heq | hb4
        · exact absurd heq (by unfold presignOp; split <;> simp)
        · rcases List.mem_cons.mp hb4 with heq | hb5
          · exact absurd heq (by unfold presignOp; split <;> simp)
          · rcases List.mem_singleton.mp hb5 with heq; cases heq
  · rw [uploadTrace_events cfg username objectKey uploadId F cr ensure h]
    intro b k2 hb
    simp only [List.mem_append] at hb
    rcases hb with ((hb2 | hb2) | hb2) | hb2
    · cases cr with
      | ok =>
        simp only [ensureEvents] at h
        cases h
        rcases List.mem_cons.mp hb2 with heq | hb3
        · cases heq
        · rcases List.mem_singleton.mp hb3 with heq; cases heq
      | alreadyOwned =>
        simp only [ensureEvents] at h
        cases h
        rcases List.mem_singleton.mp hb2 with heq
        cases heq
      | otherError => exact absurd rfl hcr
    · rcases List.mem_singleton.mp hb2 with heq
      cases heq
      rfl
    · rcases mem_partPresignEvents _ _ _ _ _ _ _ _ hb2 with ⟨n, hn⟩
      exact absurd hn (by unfold presignOp; split <;> simp)
    · rcases List.mem_cons.mp hb2 with heq | hb3
      · exact absurd heq (by unfold presignOp; split <;> simp)
      · rcases List.mem_cons.mp hb3 with heq | hb4
        · exact absurd heq (by unfold presignOp; split <;> simp)
        · rcases List.mem_cons.mp hb4 with heq | hb5
          · exact absurd heq (by unfold presignOp; split <;> simp)
          · rcases List.mem_singleton.mp hb5 with heq; cases heq

/-- C8 amended witness: concrete tenant and tenant-free uploads — every
presign request of the tenant upload carries `"ten:bob"`, and the
multipart initiation carries the plain `"bob"`. -/
theorem c8_presign_tenant_qualified_witness :
    (∀ e ∈ traceEvents (uploadTrace cfgTen "bob" 1 "k" "uid" .ok),
      presignBucket e = none ∨
      presignBucket e = some (tenantBucketName cfgTen.tenant
        (bucketNameFor cfgTen "bob"))) ∧
    tenantBucketName cfgTen.tenant (bucketNameFor cfgTen "bob") =
      "ten" ++ ":" ++ "bob" ∧
    (∀ b k2, Event.s3 (.createMultipart b k2) ∈
      traceEvents (uploadTrace cfgTen "bob" 1 "k" "uid" .ok) → b = "bob") :=
  have h := c8_presign_tenant_qualified cfgTen "bob" "/src" "k" "uid" 1 1 .ok
    (by decide)
  ⟨h.1, h.2.2.1 "ten" rfl (by decide), h.2.2.2.2.2.2⟩

/-! ## C4: the bucket name used across the storage steps -/

/-- C4 evidence: with bucket-name prefix `"fc-"`, the download for user
`"alice"` creates bucket `"alice"` (the bare username) while its
lifecycle configuration and multipart initiation address `"fc-alice"`,
and no creation request for `"fc-alice"` is ever issued; the upload is
consistent and creates `"fc-alice"`. -/
theorem c4_download_creates_unprefixed_bucket :
    Event.s3 (.createBucket "alice") ∈
      traceEvents (downloadTrace cfgPre "alice" "/src/f" 4 "k" "uid" .ok) ∧
    Event.s3 (.putLifecycle "fc-alice") ∈
      traceEvents (downloadTrace cfgPre "alice" "/src/f" 4 "k" "uid" .ok) ∧
    Event.s3 (.createMultipart "fc-alice" "k") ∈
      traceEvents (downloadTrace cfgPre "alice" "/src/f" 4 "k" "uid" .ok) ∧
    Event.s3 (.createBucket "fc-alice") ∉
      traceEvents (downloadTrace cfgPre "alice" "/src/f" 4 "k" "uid" .ok) ∧
    Event.s3 (.createBucket "fc-alice") ∈
      traceEvents (uploadTrace cfgPre "alice" 4 "k" "uid" .ok) ∧
    ("fc-alice" : String) ≠ "alice" := by decide
